import Mathlib

/-!
Verification of the fncache library: the cache-aside orchestrator
(`FnCache.Get` / `FnCache.Set` in fncache.go) and the in-process TTL
backend (`InMemoryCache` in memory/memory.go).

Embedding conventions:
- Go multiple returns `(V, error)` become `V × Option E`; `nil` error is
  `none`.
- The opaque `context.Context` is threaded through the caller-supplied
  functions in Go but never inspected by the code under study, so the
  supplied functions are modelled as arbitrary Lean functions without a
  context argument.
- The backend (`CacheLayer` interface) is modelled as a state machine over
  an abstract state type `S`; each orchestrator operation is instrumented
  with a list of `Event`s recording which collaborator calls it makes.
- Calling a nil Go function panics; the orchestrator result type `GoResult`
  has an explicit `panicked` constructor for that.
- `time.Time` / `time.Duration` are modelled as `Int`; Go `time.Now().After t`
  is the strict comparison `now > t`.
- `weak.Pointer V` is modelled by the resolution its `Value()` call would
  produce at observation time: `some v` while the value is live, `none`
  once the runtime has reclaimed it.
-/

namespace Fncache

/-- Events recording the collaborator calls an orchestrator operation makes:
a backend `Get`, an invocation of the compute function `getFn`, a backend
`Set`, or an invocation of the write-through function `setFn`. -/
inductive Event (K V : Type) where
  | backendGet : K → Event K V
  | compute : K → Event K V
  | backendSet : K → V → Event K V
  | writeThrough : K → V → Event K V
deriving DecidableEq

/-- Result of running a Go function that may panic (e.g. by invoking a nil
function value). -/
inductive GoResult (α : Type) where
  | ok : α → GoResult α
  | panicked : GoResult α
deriving DecidableEq

/-- The `CacheLayer` interface of fncache.go, as a state machine:
`Get(ctx, params) (FnReturns, error)` and `Set(ctx, params, value) error`,
each also transforming the backend state `S`. -/
structure CacheLayer (S K V E : Type) where
  get : S → K → S × V × Option E
  set : S → K → V → S × Option E

/-- The `CacheConfig` struct of fncache.go: `CacheDuration` and
`CacheCheckInterval`, both `time.Duration` (modelled as `Int`). -/
structure CacheConfig where
  cacheDuration : Int
  cacheCheckInterval : Int
deriving DecidableEq

/-- The `FnCache` struct of fncache.go: an embedded `CacheConfig`, a
`CacheLayer`, and the optional caller-supplied functions `getFn`
(compute) and `setFn` (write-through); a nil Go function value is `none`. -/
structure FnCache (S K V E : Type) extends CacheConfig where
  cache : CacheLayer S K V E
  getFn : Option (K → V × Option E)
  setFn : Option (K → V → Option E)

/-- Constructor NewFnCache of fncache.go. -/
def NewFnCache (getFn : Option (K → V × Option E)) (setFn : Option (K → V → Option E))
    (cacheLayer : CacheLayer S K V E) (config : CacheConfig) : FnCache S K V E :=
  { toCacheConfig := config, cache := cacheLayer, getFn := getFn, setFn := setFn }

/-- Method FnCache.Get of fncache.go:

```
result, err := c.cache.Get(ctx, params)
if err == nil { return result, nil }
result, err = c.getFn(ctx, params)
if err == nil { err = c.cache.Set(ctx, params, result) }
return result, err
```

Instrumented with the event list of collaborator calls; invoking a nil
`getFn` is the Go runtime panic. -/
def FnCache.Get (c : FnCache S K V E) (s : S) (k : K) :
    GoResult (S × List (Event K V) × V × Option E) :=
  match c.cache.get s k with
  | (s1, result, none) => GoResult.ok (s1, [Event.backendGet k], result, none)
  | (s1, _, some _) =>
    match c.getFn with
    | none => GoResult.panicked
    | some f =>
      match f k with
      | (result, some e) =>
        GoResult.ok (s1, [Event.backendGet k, Event.compute k], result, some e)
      | (result, none) =>
        match c.cache.set s1 k result with
        | (s2, err2) =>
          GoResult.ok
            (s2, [Event.backendGet k, Event.compute k, Event.backendSet k result],
              result, err2)

/-- Method FnCache.Set of fncache.go:

```
if c.setFn == nil { return nil }
err := c.setFn(ctx, params, value)
if err != nil { return err }
return c.cache.Set(ctx, params, value)
```

Instrumented with the event list of collaborator calls. -/
def FnCache.Set (c : FnCache S K V E) (s : S) (k : K) (v : V) :
    S × List (Event K V) × Option E :=
  match c.setFn with
  | none => (s, [], none)
  | some f =>
    match f k v with
    | some e => (s, [Event.writeThrough k v], some e)
    | none =>
      match c.cache.set s k v with
      | (s1, err) => (s1, [Event.writeThrough k v, Event.backendSet k v], err)

/-- Errors returned by the in-process backend (`memory/memory.go`):
`"cache miss"`, `"unexpected cache entry type"` (the `sync.Map` value type
assertion; unreachable in this typed model but kept for fidelity),
`"cache expired"`, `"cache value collected"`. -/
inductive MemErr where
  | miss : MemErr
  | badEntryType : MemErr
  | expired : MemErr
  | collected : MemErr
deriving DecidableEq

/-- Struct cacheEntry of memory/memory.go: `value` is the weak pointer, modelled
by the resolution its `Value()` call would produce at observation time
(`none` once reclaimed); `expiresAt` is the absolute expiry instant. -/
structure cacheEntry (V : Type) where
  value : Option V
  expiresAt : Int
deriving DecidableEq

/-- The contents of the backend `sync.Map`: at most one `cacheEntry` per
key. -/
def Store (K V : Type) : Type := K → Option (cacheEntry V)

/-- Operation Delete of the sync.Map: remove any entry for `k`. -/
def Store.del [DecidableEq K] (m : Store K V) (k : K) : Store K V :=
  fun k2 => if k2 = k then none else m k2

/-- Operation Store of the sync.Map: install `e` under `k`, overwriting any prior entry. -/
def Store.ins [DecidableEq K] (m : Store K V) (k : K) (e : cacheEntry V) :
    Store K V :=
  fun k2 => if k2 = k then some e else m k2

/-- The runtime reclaiming the weakly-held value under `k`: after this, the
weak pointer of that entry resolves to nil. Not invoked by the code; it
models the external garbage-collector action. -/
def Store.reclaim [DecidableEq K] (m : Store K V) (k : K) : Store K V :=
  fun k2 =>
    if k2 = k then (m k2).map (fun e => { e with value := none }) else m k2

/-- The `InMemoryCache` struct of memory/memory.go, reduced to its
configuration: the `sync.Map` state is passed explicitly as a `Store` and
the `done`/`wg` shutdown machinery carries no data relevant to the claims. -/
structure InMemoryCache (K V : Type) where
  ttl : Int

/-- Constructor NewInMemoryCache of memory/memory.go (the spawned cleaner goroutine is
modelled separately by `InMemoryCache.cleanerDeleteStep`). -/
def NewInMemoryCache (K V : Type) (ttl : Int) : InMemoryCache K V :=
  { ttl := ttl }

/-- Method InMemoryCache.Get of memory/memory.go:

```
val, ok := c.cache.Load(params)
if !ok { return zero, errors.New("cache miss") }
entry, ok := val.(*cacheEntry[FnReturns])
if !ok { return zero, fmt.Errorf("unexpected cache entry type") }
if time.Now().After(entry.expiresAt) {
    c.cache.Delete(params); return zero, errors.New("cache expired") }
res := entry.value.Value()
if res == nil {
    c.cache.Delete(params); return zero, errors.New("cache value collected") }
return *res, nil
```

State-passing over the `Store`; `now` is the instant `time.Now()` returns;
`default` is the Go zero value. The type-assertion branch cannot fire in
the typed model. -/
def InMemoryCache.Get [DecidableEq K] [Inhabited V] (_c : InMemoryCache K V)
    (m : Store K V) (now : Int) (k : K) : Store K V × V × Option MemErr :=
  match m k with
  | none => (m, default, some MemErr.miss)
  | some entry =>
    if now > entry.expiresAt then (m.del k, default, some MemErr.expired)
    else
      match entry.value with
      | none => (m.del k, default, some MemErr.collected)
      | some res => (m, res, none)

/-- Method InMemoryCache.Set of memory/memory.go: install a weak reference to
`value` with `expiresAt = now + ttl`, unconditionally overwriting; always
returns nil. -/
def InMemoryCache.Set [DecidableEq K] (c : InMemoryCache K V) (m : Store K V)
    (now : Int) (k : K) (v : V) : Store K V × Option MemErr :=
  (m.ins k { value := some v, expiresAt := now + c.ttl }, none)

/-- Method InMemoryCache.Delete of memory/memory.go. -/
def InMemoryCache.Delete [DecidableEq K] (_c : InMemoryCache K V)
    (m : Store K V) (k : K) : Store K V :=
  m.del k

/-- The sweep interval of the cleaner goroutine of memory/memory.go:
`time.NewTicker(c.ttl / 2)`. It is a function of the TTL alone; the
backend never receives `CacheCheckInterval`. -/
def InMemoryCache.cleanerInterval (c : InMemoryCache K V) : Int :=
  c.ttl / 2

/-- A single-key pass of the cleaner of memory/memory.go, split at its race
point. The `Range` callback received `observed` as the entry under `k`;
by the time `c.cache.Delete(key)` executes, the map may have changed to
`m` (e.g. a concurrent `Set` installed a fresh entry). The code deletes
by key unconditionally once the observed entry tested expired:

```
if entry, ok := value.(*cacheEntry[FnReturns]); ok && now.After(entry.expiresAt) {
    c.cache.Delete(key)
}
``` -/
def InMemoryCache.cleanerDeleteStep [DecidableEq K] (_c : InMemoryCache K V)
    (now : Int) (k : K) (observed : cacheEntry V) (m : Store K V) :
    Store K V :=
  if now > observed.expiresAt then m.del k else m

/-- Modelled from the spec (the configured-interval rule is stated only in
the spec; no code under src/ consumes `CacheCheckInterval`): the sweep
interval the spec prescribes, `cacheCheckInterval` when non-zero,
otherwise a default derived from the TTL, e.g. half the TTL. -/
def specSweepInterval (cfg : CacheConfig) : Int :=
  if cfg.cacheCheckInterval ≠ 0 then cfg.cacheCheckInterval
  else cfg.cacheDuration / 2

/-- The event list of an orchestrator Get outcome (empty on panic). -/
def getLog : GoResult (S × List (Event K V) × V × Option E) → List (Event K V)
  | GoResult.ok x => x.2.1
  | GoResult.panicked => []

/-- A concrete backend for witnesses: Get always misses with error 1; Set
counts its calls in the state and fails with error 7. -/
def countingFailingLayer : CacheLayer Nat Nat Nat Nat where
  get := fun s _ => (s, 0, some 1)
  set := fun s _ _ => (s + 1, some 7)

/-- A concrete backend for witnesses: Get always misses with error 1; Set
counts its calls in the state and succeeds. -/
def countingOkLayer : CacheLayer Nat Nat Nat Nat where
  get := fun s _ => (s, 0, some 1)
  set := fun s _ _ => (s + 1, none)

/-- A concrete backend for witnesses: Get always hits with value 99; Set
counts its calls in the state and succeeds. -/
def hitLayer : CacheLayer Nat Nat Nat Nat where
  get := fun s _ => (s, 99, none)
  set := fun s _ _ => (s + 1, none)

/-- An orchestrator built with nil getFn and nil setFn over a failing
backend. -/
def fncacheNilFns : FnCache Nat Nat Nat Nat :=
  NewFnCache none none countingFailingLayer { cacheDuration := 60, cacheCheckInterval := 0 }

/-- An orchestrator whose compute function fails with error 5. -/
def fncacheFailingCompute : FnCache Nat Nat Nat Nat :=
  NewFnCache (some (fun _ => (0, some 5))) none countingOkLayer
    { cacheDuration := 60, cacheCheckInterval := 0 }

/-- An orchestrator whose compute function returns 9 over a backend whose
Set fails with error 7. -/
def fncacheBadWrite : FnCache Nat Nat Nat Nat :=
  NewFnCache (some (fun _ => (9, none))) none countingFailingLayer
    { cacheDuration := 60, cacheCheckInterval := 0 }

/-- An orchestrator over a backend that always hits. -/
def fncacheHit : FnCache Nat Nat Nat Nat :=
  NewFnCache none none hitLayer { cacheDuration := 60, cacheCheckInterval := 0 }

/-- The empty backend store over Nat keys and values. -/
def emptyStoreNat : Store Nat Nat := fun _ => none

/-- A concrete in-process backend with TTL 100. -/
def mem100 : InMemoryCache Nat Nat := NewInMemoryCache Nat Nat 100

/-- Claim C1: with a nil writeThroughFn (setFn), the orchestrator Set is
claimed to still invoke backend.Set exactly once and return its error.
Refuted: at this concrete input, Set returns success immediately, the
backend state is untouched, no backendSet event occurs, and the backend
write error 7 is never surfaced. -/
theorem C1_counterexample :
    FnCache.Set fncacheNilFns 0 1 2 = (0, [], none) ∧
    countingFailingLayer.set 0 1 2 = (1, some 7) ∧
    Event.backendSet 1 2 ∉ (FnCache.Set fncacheNilFns 0 1 2).2.1 := by
  refine ⟨rfl, rfl, ?_⟩
  simp [FnCache.Set, fncacheNilFns, NewFnCache]

/-- Claim C1 (amended): when setFn is nil, the orchestrator Set returns nil
immediately, making no collaborator call at all and leaving the backend
state unchanged. -/
theorem C1_set_nil_writeThrough_skips_backend (c : FnCache S K V E) (s : S)
    (k : K) (v : V) (h : c.setFn = none) :
    FnCache.Set c s k v = (s, [], none) := by
  simp [FnCache.Set, h]

/-- Witness for C1 (amended) at a concrete input. -/
theorem C1_witness :
    fncacheNilFns.setFn = none ∧ FnCache.Set fncacheNilFns 0 1 2 = (0, [], none) :=
  ⟨rfl, C1_set_nil_writeThrough_skips_backend fncacheNilFns 0 1 2 rfl⟩

/-- Claim C2: with a nil computeFn (getFn) and a backend miss, Get is
claimed to return a configuration error without crashing. Refuted: at this
concrete input the backend misses, getFn is nil, and Get panics (invokes a
nil Go function) instead of returning any error value. -/
theorem C2_counterexample :
    FnCache.Get fncacheNilFns 0 1 = GoResult.panicked := rfl

/-- Claim C2 (amended): whenever the backend Get returns a non-nil error and
getFn is nil, the orchestrator Get panics by invoking a nil function
value; no configuration error is constructed. -/
theorem C2_get_nil_compute_panics (c : FnCache S K V E) (s : S) (k : K)
    (s1 : S) (r : V) (e : E) (hmiss : c.cache.get s k = (s1, r, some e))
    (hfn : c.getFn = none) :
    FnCache.Get c s k = GoResult.panicked := by
  simp [FnCache.Get, hmiss, hfn]

/-- Witness for C2 (amended) at a concrete input. -/
theorem C2_witness : FnCache.Get fncacheNilFns 0 1 = GoResult.panicked :=
  C2_get_nil_compute_panics fncacheNilFns 0 1 0 0 1 rfl rfl

/-- Claim C3: after the in-process backend Set stores v at time t0, a Get at
any time t not past t0 + ttl, with the weak value still unreclaimed, returns
v with no error and leaves the store unchanged. -/
theorem C3_get_after_set_within_ttl [DecidableEq K] [Inhabited V]
    (c : InMemoryCache K V) (m : Store K V) (t0 : Int) (k : K) (v : V)
    (t : Int) (hlive : ¬ t > t0 + c.ttl) :
    c.Get (c.Set m t0 k v).1 t k = ((c.Set m t0 k v).1, v, none) := by
  simp [InMemoryCache.Get, InMemoryCache.Set, Store.ins, hlive]

/-- Witness for C3 at a concrete input. -/
theorem C3_witness :
    ¬ (50 : Int) > 0 + mem100.ttl ∧
    mem100.Get (mem100.Set emptyStoreNat 0 1 42).1 50 1 =
      ((mem100.Set emptyStoreNat 0 1 42).1, 42, none) :=
  ⟨by decide, C3_get_after_set_within_ttl mem100 emptyStoreNat 0 1 42 50 (by decide)⟩

/-- Claim C4: on a backend miss, when the compute function fails, the
orchestrator Get returns the compute error verbatim (with the compute
result), and no backendSet event occurs (no negative caching). -/
theorem C4_compute_error_no_backend_write (c : FnCache S K V E) (s : S)
    (k : K) (s1 : S) (r : V) (e : E) (f : K → V × Option E) (r2 : V) (ce : E)
    (hmiss : c.cache.get s k = (s1, r, some e)) (hfn : c.getFn = some f)
    (hcompute : f k = (r2, some ce)) :
    FnCache.Get c s k =
      GoResult.ok (s1, [Event.backendGet k, Event.compute k], r2, some ce) ∧
    ∀ k2 v2, Event.backendSet k2 v2 ∉ getLog (FnCache.Get c s k) := by
  have h : FnCache.Get c s k =
      GoResult.ok (s1, [Event.backendGet k, Event.compute k], r2, some ce) := by
    simp [FnCache.Get, hmiss, hfn, hcompute]
  exact ⟨h, by simp [h, getLog]⟩

/-- Witness for C4 at a concrete input. -/
theorem C4_witness :
    FnCache.Get fncacheFailingCompute 0 1 =
      GoResult.ok (0, [Event.backendGet 1, Event.compute 1], 0, some 5) ∧
    ∀ k2 v2, Event.backendSet k2 v2 ∉ getLog (FnCache.Get fncacheFailingCompute 0 1) :=
  C4_compute_error_no_backend_write fncacheFailingCompute 0 1 0 0 1
    (fun _ => (0, some 5)) 0 5 rfl rfl rfl

/-- Claim C5: on a backend miss, when compute succeeds with r2 and the
backend write then fails with e2, the orchestrator Get returns the pair
(r2, e2): the computed value is kept and the write error is the overall
error. -/
theorem C5_write_failure_keeps_value_surfaces_error (c : FnCache S K V E)
    (s : S) (k : K) (s1 s2 : S) (r r2 : V) (e e2 : E) (f : K → V × Option E)
    (hmiss : c.cache.get s k = (s1, r, some e)) (hfn : c.getFn = some f)
    (hcompute : f k = (r2, none)) (hset : c.cache.set s1 k r2 = (s2, some e2)) :
    FnCache.Get c s k =
      GoResult.ok
        (s2, [Event.backendGet k, Event.compute k, Event.backendSet k r2],
          r2, some e2) := by
  simp [FnCache.Get, hmiss, hfn, hcompute, hset]

/-- Witness for C5 at a concrete input. -/
theorem C5_witness :
    FnCache.Get fncacheBadWrite 0 1 =
      GoResult.ok
        (1, [Event.backendGet 1, Event.compute 1, Event.backendSet 1 9],
          9, some 7) :=
  C5_write_failure_keeps_value_surfaces_error fncacheBadWrite 0 1 0 1 0 9 1 7
    (fun _ => (9, none)) rfl rfl rfl rfl

/-- Claim C6: the sweeper is claimed never to evict a newer, still-live
entry installed under the same key between its observation and its
removal. Refuted: the cleaner observed the expired entry (value 1, expiry
10) at now = 20; a concurrent Set then installed a fresh entry expiring at
120; the delete-by-key removes that live entry. -/
theorem C6_counterexample :
    (mem100.Set emptyStoreNat 20 1 2).1 1 =
      some { value := some 2, expiresAt := 120 } ∧
    ¬ (20 : Int) > 120 ∧
    mem100.cleanerDeleteStep 20 1 { value := some 1, expiresAt := 10 }
      (mem100.Set emptyStoreNat 20 1 2).1 1 = none := by
  refine ⟨?_, by decide, ?_⟩
  · simp [InMemoryCache.Set, Store.ins, mem100, NewInMemoryCache]
  · simp [InMemoryCache.cleanerDeleteStep, Store.del]

/-- Claim C6 (amended): once the cleaner has observed an entry for k that
tested expired, it deletes key k unconditionally, removing whatever entry
the store holds for k at deletion time (other keys are untouched). -/
theorem C6_cleaner_deletes_by_key_unconditionally [DecidableEq K]
    (c : InMemoryCache K V) (now : Int) (k : K) (observed : cacheEntry V)
    (m : Store K V) (hexp : now > observed.expiresAt) :
    c.cleanerDeleteStep now k observed m k = none ∧
    ∀ k2, k2 ≠ k → c.cleanerDeleteStep now k observed m k2 = m k2 := by
  constructor
  · simp [InMemoryCache.cleanerDeleteStep, hexp, Store.del]
  · intro k2 hk2
    simp [InMemoryCache.cleanerDeleteStep, hexp, Store.del, hk2]

/-- Witness for C6 (amended) at a concrete input. -/
theorem C6_witness :
    mem100.cleanerDeleteStep 20 1 { value := some 1, expiresAt := 10 }
      (mem100.Set emptyStoreNat 20 1 2).1 1 = none ∧
    ∀ k2, k2 ≠ 1 →
      mem100.cleanerDeleteStep 20 1 { value := some 1, expiresAt := 10 }
        (mem100.Set emptyStoreNat 20 1 2).1 k2 =
        (mem100.Set emptyStoreNat 20 1 2).1 k2 :=
  C6_cleaner_deletes_by_key_unconditionally mem100 20 1
    { value := some 1, expiresAt := 10 } (mem100.Set emptyStoreNat 20 1 2).1
    (by decide)

/-- Claim C7: when the backend Get hits (no error), the orchestrator Get
returns that value immediately with no error; the log shows the single
backend Get and neither a compute nor a backendSet event. -/
theorem C7_hit_returns_immediately (c : FnCache S K V E) (s : S) (k : K)
    (s1 : S) (r : V) (hhit : c.cache.get s k = (s1, r, none)) :
    FnCache.Get c s k = GoResult.ok (s1, [Event.backendGet k], r, none) ∧
    (∀ k2, Event.compute k2 ∉ getLog (FnCache.Get c s k)) ∧
    (∀ k2 v2, Event.backendSet k2 v2 ∉ getLog (FnCache.Get c s k)) := by
  have h : FnCache.Get c s k = GoResult.ok (s1, [Event.backendGet k], r, none) := by
    simp [FnCache.Get, hhit]
  exact ⟨h, by simp [h, getLog], by simp [h, getLog]⟩

/-- Witness for C7 at a concrete input. -/
theorem C7_witness :
    FnCache.Get fncacheHit 0 1 = GoResult.ok (0, [Event.backendGet 1], 99, none) ∧
    (∀ k2, Event.compute k2 ∉ getLog (FnCache.Get fncacheHit 0 1)) ∧
    (∀ k2 v2, Event.backendSet k2 v2 ∉ getLog (FnCache.Get fncacheHit 0 1)) :=
  C7_hit_returns_immediately fncacheHit 0 1 0 99 rfl

/-- Claim C8: when the stored entry for k has now strictly past expiresAt,
the backend Get deletes the entry, returns the "expired" error (distinct
from the plain "miss" error), and the resulting store is exactly the input
store with k removed. -/
theorem C8_expired_get_deletes_and_errors [DecidableEq K] [Inhabited V]
    (c : InMemoryCache K V) (m : Store K V) (now : Int) (k : K)
    (entry : cacheEntry V) (hk : m k = some entry)
    (hexp : now > entry.expiresAt) :
    c.Get m now k = (m.del k, default, some MemErr.expired) ∧
    m.del k k = none ∧
    (∀ k2, k2 ≠ k → m.del k k2 = m k2) ∧
    MemErr.expired ≠ MemErr.miss := by
  refine ⟨?_, by simp [Store.del], ?_, by simp⟩
  · simp [InMemoryCache.Get, hk, hexp]
  · intro k2 hk2
    simp [Store.del, hk2]

/-- Witness for C8 at a concrete input. -/
theorem C8_witness :
    mem100.Get (Store.ins emptyStoreNat 1 { value := some 5, expiresAt := 10 }) 11 1 =
      ((Store.ins emptyStoreNat 1 { value := some 5, expiresAt := 10 }).del 1,
        default, some MemErr.expired) ∧
    (Store.ins emptyStoreNat 1 { value := some 5, expiresAt := 10 }).del 1 1 = none ∧
    (∀ k2, k2 ≠ 1 →
      (Store.ins emptyStoreNat 1 { value := some 5, expiresAt := 10 }).del 1 k2 =
        Store.ins emptyStoreNat 1 { value := some 5, expiresAt := 10 } k2) ∧
    MemErr.expired ≠ MemErr.miss :=
  C8_expired_get_deletes_and_errors mem100
    (Store.ins emptyStoreNat 1 { value := some 5, expiresAt := 10 }) 11 1
    { value := some 5, expiresAt := 10 } (by simp [Store.ins]) (by decide)

/-- Claim C9: the sweep interval is claimed to equal the configured
cacheCheckInterval when it is non-zero. Refuted: the backend is
constructed from the TTL alone and its ticker interval is ttl / 2; for
TTL 10 with configured check interval 7, the code sweeps every 5 while
the spec prescribes 7. -/
theorem C9_counterexample :
    (NewInMemoryCache Nat Nat 10).cleanerInterval = 5 ∧
    specSweepInterval { cacheDuration := 10, cacheCheckInterval := 7 } = 7 ∧
    (5 : Int) ≠ 7 := by
  refine ⟨by decide, by decide, by decide⟩

/-- Claim C9 (amended): the in-process backend never sees
cacheCheckInterval; its sweep interval always equals the spec fallback
formula (half the TTL), i.e. it agrees with the spec rule only when the
configured interval is zero. -/
theorem C9_sweep_interval_always_half_ttl (cfg : CacheConfig) :
    (NewInMemoryCache Nat Nat cfg.cacheDuration).cleanerInterval =
      specSweepInterval { cacheDuration := cfg.cacheDuration, cacheCheckInterval := 0 } := by
  simp [InMemoryCache.cleanerInterval, NewInMemoryCache, specSweepInterval]

/-- Claim C10: whenever the backend Get returns any non-nil error, the
orchestrator Get falls through to the compute function; the outcome (shown
on the right-hand side) depends neither on the backend error e nor on the
value the backend returned alongside it, so no backend-Get error is ever
surfaced to the caller. -/
theorem C10_backend_get_error_discarded (c : FnCache S K V E) (s : S)
    (k : K) (s1 : S) (r : V) (e : E) (f : K → V × Option E)
    (hmiss : c.cache.get s k = (s1, r, some e)) (hfn : c.getFn = some f) :
    FnCache.Get c s k =
      (match f k with
        | (r2, some ce) =>
          GoResult.ok (s1, [Event.backendGet k, Event.compute k], r2, some ce)
        | (r2, none) =>
          GoResult.ok ((c.cache.set s1 k r2).1,
            [Event.backendGet k, Event.compute k, Event.backendSet k r2],
            r2, (c.cache.set s1 k r2).2)) := by
  rcases hfk : f k with ⟨r2, oe⟩
  rcases oe with _ | ce
  · rcases hst : c.cache.set s1 k r2 with ⟨s2, err2⟩
    simp [FnCache.Get, hmiss, hfn, hfk, hst]
  · simp [FnCache.Get, hmiss, hfn, hfk]

/-- Witness for C10 at a concrete input. -/
theorem C10_witness :
    FnCache.Get fncacheBadWrite 0 1 =
      (match (fun (_ : Nat) => ((9 : Nat), (none : Option Nat))) 1 with
        | (r2, some ce) =>
          GoResult.ok (0, [Event.backendGet 1, Event.compute 1], r2, some ce)
        | (r2, none) =>
          GoResult.ok ((fncacheBadWrite.cache.set 0 1 r2).1,
            [Event.backendGet 1, Event.compute 1, Event.backendSet 1 r2],
            r2, (fncacheBadWrite.cache.set 0 1 r2).2)) :=
  C10_backend_get_error_discarded fncacheBadWrite 0 1 0 0 1
    (fun _ => (9, none)) rfl rfl

end Fncache
